import Mathlib

/-
  Verification development for the active-geolocator core library
  (lib/ageo/ageo.py and lib/ageo/ranging.py).

  Shallow embedding conventions:
  * Python/numpy floating-point numbers are modelled as exact rationals (ℚ).
  * A scipy sparse matrix is modelled at value level: a pair of dimensions
    together with a total entry function; an entry is "stored" iff nonzero.
  * Fallible code is modelled with Except String.
  * External collaborators (pyproj geodesy, shapely geometry, calibration
    objects) are opaque parameters of the functions that consume them.
-/

set_option maxRecDepth 4000

namespace AGeo

/-- Value-level model of a scipy sparse matrix over the longitude × latitude
grid: dimensions plus a total entry function (zero entries are unstored). -/
structure SpMat where
  nlon : ℕ
  nlat : ℕ
  entry : ℕ → ℕ → ℚ

/-- Total mass of the matrix, `matrix.sum()` in the source. -/
def SpMat.total (M : SpMat) : ℚ :=
  ∑ i ∈ Finset.range M.nlon, ∑ j ∈ Finset.range M.nlat, M.entry i j

/-- All in-range entries are non-negative. -/
def SpMat.Nonneg (M : SpMat) : Prop :=
  ∀ i < M.nlon, ∀ j < M.nlat, 0 ≤ M.entry i j

/-- The empty sparse matrix `sparse.csr_matrix((nlon, nlat))`. -/
def zeroMat (nlon nlat : ℕ) : SpMat := ⟨nlon, nlat, fun _ _ => 0⟩

/-- `M / s` (scalar division, as in `M /= s`). -/
def SpMat.scaleInv (M : SpMat) (s : ℚ) : SpMat :=
  ⟨M.nlon, M.nlat, fun i j => M.entry i j / s⟩

/-- Element-wise product `A.multiply(B)` (shape taken from `A`). -/
def SpMat.hadamard (A B : SpMat) : SpMat :=
  ⟨A.nlon, A.nlat, fun i j => A.entry i j * B.entry i j⟩

/-- Matrix transposition `.T`. -/
def SpMat.transpose (M : SpMat) : SpMat :=
  ⟨M.nlat, M.nlon, fun i j => M.entry j i⟩

/-- All in-range values in CSR (row-major) order. -/
def SpMat.rowMajorVals (M : SpMat) : List ℚ :=
  (List.range M.nlon).flatMap (fun i => (List.range M.nlat).map (fun j => M.entry i j))

/-- The first stored value, `M.data[0]` of a zero-eliminated CSR matrix. -/
def SpMat.firstNonzero (M : SpMat) : Option ℚ :=
  M.rowMajorVals.find? (fun v => v != 0)

/-- Pointwise `np.allclose` test with numpy defaults rtol=1e-5, atol=1e-8. -/
def ratAllclose (a c : ℚ) : Bool :=
  decide (|a - c| ≤ 1 / 100000000 + (1 / 100000) * |c|)

/-- Model of `np.allclose(M.data, c)`: every stored (nonzero) value is close
to `c`. -/
def SpMat.allcloseConst (M : SpMat) (c : ℚ) : Bool :=
  M.rowMajorVals.all (fun v => v == 0 || ratAllclose v c)

/-- Model of `np.array_equal(M1.indptr, M2.indptr) and
np.array_equal(M1.indices, M2.indices)`: the two matrices have the same
dimensions and the same stored (nonzero) pattern. -/
def SpMat.samePattern (A B : SpMat) : Bool :=
  A.nlon == B.nlon && A.nlat == B.nlat &&
    (List.range A.nlon).all (fun i =>
      (List.range A.nlat).all (fun j => (A.entry i j != 0) == (B.entry i j != 0)))

/-- A rectangle in (west, south, east, north) order, as produced by shapely
`.bounds`. -/
structure Rect where
  west : ℚ
  south : ℚ
  east : ℚ
  north : ℚ
deriving DecidableEq

/-- A bounding region reduced to its quantized bounding rectangle; `none`
models an empty shapely geometry (whose `.bounds` is the empty tuple). -/
abbrev Region := Option Rect

/-- Rectangle intersection, the model of shapely geometry intersection for
the box-shaped regions the base class manipulates. -/
def Rect.inter (a b : Rect) : Region :=
  let r : Rect := ⟨max a.west b.west, max a.south b.south,
                   min a.east b.east, min a.north b.north⟩
  if r.east < r.west ∨ r.north < r.south then none else some r

/-- Intersection of regions: empty if either side is empty. -/
def Region.inter : Region → Region → Region
  | some a, some b => Rect.inter a b
  | _, _ => none

/-- `bisect.bisect_left` on a sorted coordinate vector: the number of
elements strictly below `v`. -/
def bisect_left (xs : List ℚ) (v : ℚ) : ℕ :=
  xs.countP (fun x => decide (x < v))

/-- `bisect.bisect_right` on a sorted coordinate vector: the number of
elements not above `v`. -/
def bisect_right (xs : List ℚ) (v : ℚ) : ℕ :=
  xs.countP (fun x => decide (x ≤ v))

/-- Membership of grid index pair (i, j) in the index set produced by
`mask_ij(bounds, longitudes, latitudes)`. -/
def inMaskIJ (r : Rect) (lons lats : List ℚ) (i j : ℕ) : Bool :=
  decide (bisect_left lons r.west ≤ i) && decide (i < bisect_right lons r.east) &&
    decide (bisect_left lats r.south ≤ j) && decide (j < bisect_right lats r.north)

/-- `mask_matrix(bounds, longitudes, latitudes)`: 1 at grid points inside
the rectangle, 0 outside, shaped (len(longitudes), len(latitudes)). -/
def mask_matrix (r : Rect) (lons lats : List ℚ) : SpMat :=
  ⟨lons.length, lats.length, fun i j => if inMaskIJ r lons lats i j then 1 else 0⟩

/-- A fully materialized `Location` (the state a base-class instance is in
once its probability matrix, vacuity flag and bounding region are known;
`Map` instances and every result of `intersection` are in this state). -/
structure Loc where
  resolution : ℚ
  fuzz : ℚ
  north : ℚ
  south : ℚ
  east : ℚ
  west : ℚ
  lon_spacing : ℚ
  lat_spacing : ℚ
  longitudes : List ℚ
  latitudes : List ℚ
  probability : SpMat
  vacuous : Bool
  bounds : Region

/-- The eight scalar grid parameters compared by `Location.intersection`
before combining two locations.  Note the longitude/latitude vectors are
not part of this comparison. -/
def Loc.sameGrid (A B : Loc) : Bool :=
  A.resolution == B.resolution && A.fuzz == B.fuzz &&
    A.north == B.north && A.south == B.south &&
    A.east == B.east && A.west == B.west &&
    A.lon_spacing == B.lon_spacing && A.lat_spacing == B.lat_spacing

/-- Base-class `Location.compute_probability_matrix_within(bounds)`:
restrict the known matrix to the bounds with `mask_matrix` and renormalize;
returns `(matrix, vacuous)`. -/
def Loc.compute_probability_matrix_within (L : Loc) (bounds : Region) : SpMat × Bool :=
  if L.vacuous then (L.probability, true)
  else
    match bounds with
    | none => (zeroMat L.longitudes.length L.latitudes.length, true)
    | some r =>
      let M := (mask_matrix r L.longitudes L.latitudes).hadamard L.probability
      let s := M.total
      if s ≠ 0 then (M.scaleInv s, false) else (M, true)

/-- The near-uniform fast path of `Location.intersection`: when both
matrices have the same stored pattern and one has all stored values close
to its first stored value, the other matrix is reused directly. -/
def fastPath (M1 M2 : SpMat) : Option SpMat :=
  if M1.samePattern M2 then
    match M1.firstNonzero with
    | some c1 =>
      if M1.allcloseConst c1 then some M2
      else
        match M2.firstNonzero with
        | some c2 => if M2.allcloseConst c2 then some M1 else none
        | none => none
    | none => none
  else none

/-- The matrix-combination step of `Location.intersection`: the vacuity
branches keep the first vacuous matrix, then the fast path, and otherwise
the element-wise product renormalized (vacuous if its total is zero). -/
def combinePM (MV1 MV2 : SpMat × Bool) : SpMat × Bool :=
  if MV1.2 then (MV1.1, true)
  else if MV2.2 then (MV2.1, true)
  else
    match fastPath MV1.1 MV2.1 with
    | some M => (M, false)
    | none =>
      let Mp := MV1.1.hadamard MV2.1
      let s := Mp.total
      if s ≠ 0 then (Mp.scaleInv s, false) else (Mp, true)

/-- `Location.intersection(self, other, bounds=None)`.  Faithful to the
source: the eight scalar grid parameters are compared (raising a
configuration error on mismatch), bounds default to the intersection of the
two bounding regions, both matrices are restricted and combined with
`combinePM`. -/
def Loc.intersection (A B : Loc) (boundsArg : Option Region) : Except String Loc :=
  if ¬ (A.sameGrid B = true) then
    .error "cannot intersect locations with inconsistent grids"
  else
    let bounds := boundsArg.getD (Region.inter A.bounds B.bounds)
    let MV : SpMat × Bool :=
      combinePM (A.compute_probability_matrix_within bounds)
        (B.compute_probability_matrix_within bounds)
    .ok { resolution := A.resolution, fuzz := A.fuzz,
          north := A.north, south := A.south, east := A.east, west := A.west,
          lon_spacing := A.lon_spacing, lat_spacing := A.lat_spacing,
          longitudes := A.longitudes, latitudes := A.latitudes,
          probability := MV.1, vacuous := MV.2, bounds := bounds }

/-- `Map.__init__`: orientation auto-detection, the positivity assertion on
the raw baseline total, and renormalization.  The HDF5 attributes are the
function arguments. -/
def mapInit (baseline : SpMat) (longitudes latitudes : List ℚ)
    (resolution fuzz north south east west lon_spacing lat_spacing : ℚ) :
    Except String Loc :=
  let shaped : Except String SpMat :=
    if baseline.nlon = longitudes.length then .ok baseline
    else if baseline.nlat = longitudes.length then .ok baseline.transpose
    else .error "mapfile matrix shape is inconsistent with lon and lat vectors"
  match shaped with
  | .error e => .error e
  | .ok b =>
    let s := b.total
    if 0 < s then
      .ok { resolution := resolution, fuzz := fuzz,
            north := north, south := south, east := east, west := west,
            lon_spacing := lon_spacing, lat_spacing := lat_spacing,
            longitudes := longitudes, latitudes := latitudes,
            probability := b.scaleInv s, vacuous := false,
            bounds := some ⟨west, south, east, north⟩ }
    else .error "AssertionError: baseline total is not positive"

/-- Half of the equatorial circumference of the Earth in meters
(`ranging.DISTANCE_LIMIT`). -/
def DISTANCE_LIMIT : ℚ := 20037508

/-- The clipping `min(DISTANCE_LIMIT, max(0, val))` applied to each of the
six candidate breakpoints in `MinMax.__init__`. -/
def clipToLimit (v : ℚ) : ℚ := min DISTANCE_LIMIT (max 0 v)

/-- The state of a constructed `MinMax` ranging function: its sorted
breakpoint vector. -/
structure MinMaxRF where
  bounds : List ℚ

/-- The shape values `[0, .75, 1, 1, .75, 0]` of the MinMax interpolant. -/
def shapeVals : List ℚ := [0, 3 / 4, 1, 1, 3 / 4, 0]

/-- `scipy.interpolate.interp1d(xs, ys, kind="linear", fill_value=0,
bounds_error=False)` evaluated at `v`: zero outside `[xs[0], xs[-1]]`,
otherwise linear interpolation on the segment found by a left-biased
binary search clipped to `[1, len(xs) - 1]`. -/
def interp1dLinear (xs ys : List ℚ) (v : ℚ) : ℚ :=
  if v < xs.headD 0 ∨ xs.getLastD 0 < v then 0
  else
    let idx := min (xs.length - 1) (max 1 (bisect_left xs v))
    let xlo := xs.getD (idx - 1) 0
    let xhi := xs.getD idx 0
    let ylo := ys.getD (idx - 1) 0
    let yhi := ys.getD idx 0
    ylo + (yhi - ylo) * (v - xlo) / (xhi - xlo)

/-- `MinMax.__init__`: clip the six candidate bounds (calibration,
empirical, physical min and max) to `[0, DISTANCE_LIMIT]` and sort them. -/
def minmaxInit (min_cal max_cal min_emp max_emp min_phy max_phy : ℚ) : MinMaxRF :=
  ⟨([min_cal, max_cal, min_emp, max_emp, min_phy, max_phy].map clipToLimit).insertionSort
      (· ≤ ·)⟩

/-- `MinMax.unnormalized_pvals`. -/
def MinMaxRF.unnormalized_pvals (rf : MinMaxRF) (v : ℚ) : ℚ :=
  interp1dLinear rf.bounds shapeVals v

/-- `MinMax.distance_bound`: the largest breakpoint. -/
def MinMaxRF.distance_bound (rf : MinMaxRF) : ℚ :=
  rf.bounds.getLastD 0

/-- `np.percentile(xs, q)` with the default linear interpolation: the value
a fraction `q / 100` of the way through the sorted data. -/
def percentile (xs : List ℚ) (q : ℚ) : ℚ :=
  let s := xs.insertionSort (· ≤ ·)
  let n := s.length
  let pos : ℚ := q / 100 * ((n : ℚ) - 1)
  let i : ℕ := (⌊pos⌋).toNat
  let frac : ℚ := pos - (i : ℚ)
  let a := s.getD i 0
  let b := s.getD (i + 1) a
  a + frac * (b - a)

/-- The state of a constructed `Gaussian` ranging function. -/
structure GaussianRF where
  distance_bound : ℚ
  mu : ℚ
  sigma : ℚ
deriving DecidableEq

/-- `Gaussian.__init__`, with the calibration accessors `_mu` / `_sigma`
and the outputs of the two `distance_range` calls as opaque parameters.
Note the source passes `.25` — the 0.25th percentile — to `np.percentile`
when deriving the RTT at which `_mu` and `_sigma` are evaluated, and then
floors `mu` at 1000 m and `sigma` at 1000/3 m. -/
def gaussianInit (muF sigmaF : ℚ → ℚ) (min_cal max_cal min_phy max_phy : ℚ)
    (rtts : List ℚ) : GaussianRF :=
  let db := max (max (max min_cal max_cal) min_phy) max_phy
  let med_rtt := percentile rtts (1 / 4)
  let mu := max (muF med_rtt) 1000
  let sigma := max (sigmaF med_rtt) (1000 / 3)
  ⟨db, mu, sigma⟩

/-- Following the claim wording only (for comparison with `gaussianInit`):
the same construction but evaluating the calibration functions at the 25th
percentile of the RTTs. -/
def gaussianInitClaimed (muF sigmaF : ℚ → ℚ) (min_cal max_cal min_phy max_phy : ℚ)
    (rtts : List ℚ) : GaussianRF :=
  let db := max (max (max min_cal max_cal) min_phy) max_phy
  let med_rtt := percentile rtts 25
  let mu := max (muF med_rtt) 1000
  let sigma := max (sigmaF med_rtt) (1000 / 3)
  ⟨db, mu, sigma⟩

/-- The two shapes a bounding region computed by
`Observation.compute_bounding_region_now` can take.  The `geoDisk`
constructor abstracts the azimuthal-equidistant disk buffering and its two
geometric corrections (external pyproj/shapely computations); the claims
only concern which branch is taken. -/
inductive BoundingShape where
  | wholeMap (west south east north : ℚ)
  | geoDisk (ref_lon ref_lat radius : ℚ)
deriving DecidableEq

/-- The branch structure of `Observation.compute_bounding_region_now`: the
whole-map rectangle when the distance bound exceeds 19975000 m or is zero,
otherwise the geodesic disk of that radius around the reference point. -/
def obs_compute_bounding_region (west south east north ref_lon ref_lat
    distance_bound : ℚ) : BoundingShape :=
  if distance_bound > 19975000 ∨ distance_bound = 0 then
    .wholeMap west south east north
  else
    .geoDisk ref_lon ref_lat distance_bound

/-- The data an `Observation` needs to compute its restricted probability
matrix: the grid, the reference point, the geodesic distance function
(external pyproj computation, an opaque parameter), the ranging function
value map, and the observation's own (lazily computed) bounding region. -/
structure ObsCtx where
  longitudes : List ℚ
  latitudes : List ℚ
  ref_lon : ℚ
  ref_lat : ℚ
  geodist : ℚ → ℚ → ℚ → ℚ → ℚ
  pvalsFn : ℚ → ℚ
  obsBounds : Region

/-- The unnormalized probability the ranging function assigns to grid cell
(i, j): `range_fn.unnormalized_pvals` applied to the geodesic distance from
the reference point. -/
def obsPv (ctx : ObsCtx) (i j : ℕ) : ℚ :=
  ctx.pvalsFn (ctx.geodist ctx.ref_lon ctx.ref_lat
    (ctx.longitudes.getD i 0) (ctx.latitudes.getD j 0))

/-- `pvals.sum()`: the total unnormalized mass over the masked cells. -/
def obsTotal (ctx : ObsCtx) (r : Rect) : ℚ :=
  ∑ i ∈ Finset.range ctx.longitudes.length, ∑ j ∈ Finset.range ctx.latitudes.length,
    if inMaskIJ r ctx.longitudes ctx.latitudes i j then obsPv ctx i j else 0

/-- `Observation.compute_probability_matrix_within(bounds)`: intersect the
requested region with the observation bounds, evaluate the ranging
function on the geodesic distances to the masked grid points, renormalize;
empty intersections make `mask_ij` destructure an empty bounds tuple and
raise, and zero total mass yields the vacuous empty matrix. -/
def Observation.compute_probability_matrix_within (ctx : ObsCtx) (bounds : Region) :
    Except String (SpMat × Bool) :=
  match bounds with
  | none => .ok (zeroMat ctx.longitudes.length ctx.latitudes.length, true)
  | some br =>
    match Region.inter (some br) ctx.obsBounds with
    | none => .error "invalid bounds argument"
    | some r =>
      if obsTotal ctx r ≠ 0 then
        .ok (⟨ctx.longitudes.length, ctx.latitudes.length, fun i j =>
          if inMaskIJ r ctx.longitudes ctx.latitudes i j then
            obsPv ctx i j / obsTotal ctx r
          else 0⟩,
          false)
      else .ok (zeroMat ctx.longitudes.length ctx.latitudes.length, true)

/-- One row of the pytables record format (`LocationRowOnDisk`). -/
structure DiskRow where
  grid_x : ℕ
  grid_y : ℕ
  longitude : ℚ
  latitude : ℚ
  prob_mass : ℚ

/-- The result assembled by `Location._lazy_load_pmatrix`. -/
structure LoadedPM where
  probability : SpMat
  vacuous : Bool
  boundsRect : Rect

/-- dok-matrix assignment `M[x, y] = v`. -/
def updEntry (f : ℕ → ℕ → ℚ) (x y : ℕ) (v : ℚ) : ℕ → ℕ → ℚ :=
  fun i j => if i = x ∧ j = y then v else f i j

/-- The row loop of `Location._lazy_load_pmatrix`, followed by the bounds
reconstruction.  A strictly positive mass is stored; a zero is skipped
silently; a negative mass reaches
`sys.stderr.write(fname + ...)` where `fname` is an unbound name, so the
Python interpreter raises NameError out of the load. -/
def lazyLoadGo (lon_count lat_count : ℕ) (longitudes latitudes : List ℚ) :
    List DiskRow → (ℕ → ℕ → ℚ) → Bool → Except String LoadedPM
  | [], f, vac =>
    if vac then .ok ⟨⟨lon_count, lat_count, f⟩, true, ⟨0, 0, 0, 0⟩⟩
    else
      let iList := (List.range lon_count).filter
        (fun i => (List.range lat_count).any (fun j => f i j != 0))
      let jList := (List.range lat_count).filter
        (fun j => (List.range lon_count).any (fun i => f i j != 0))
      let wb := longitudes.getD (iList.headD 0) 0
      let eb := longitudes.getD (iList.getLastD 0) 0
      let sb := latitudes.getD (jList.headD 0) 0
      let nb := latitudes.getD (jList.getLastD 0) 0
      .ok ⟨⟨lon_count, lat_count, f⟩, false, ⟨wb, sb, eb, nb⟩⟩
  | r :: rs, f, vac =>
    if r.prob_mass > 0 then
      lazyLoadGo lon_count lat_count longitudes latitudes rs
        (updEntry f r.grid_x r.grid_y r.prob_mass) false
    else if r.prob_mass < 0 then
      .error "NameError: fname is not defined"
    else
      lazyLoadGo lon_count lat_count longitudes latitudes rs f vac

/-- `Location._lazy_load_pmatrix` on the rows of the stored table. -/
def Location.lazy_load_pmatrix (lon_count lat_count : ℕ)
    (longitudes latitudes : List ℚ) (rows : List DiskRow) :
    Except String LoadedPM :=
  lazyLoadGo lon_count lat_count longitudes latitudes rows (fun _ _ => 0) true

/-- Python sequence indexing of an axis of length `n` at signed index `k`:
negative indices wrap once; anything outside `[-n, n)` raises IndexError. -/
def pyIdx (n : ℕ) (k : ℤ) : Except String ℕ :=
  if 0 ≤ k then
    if k < (n : ℤ) then .ok k.toNat else .error "IndexError"
  else
    if -k ≤ (n : ℤ) then .ok (n - (-k).toNat) else .error "IndexError"

/-- `self.probability[i, j]` with Python indexing semantics on both axes. -/
def pyGet (M : SpMat) (i j : ℤ) : Except String ℚ :=
  match pyIdx M.nlon i, pyIdx M.nlat j with
  | .ok a, .ok b => .ok (M.entry a b)
  | .error e, _ => .error e
  | _, .error e => .error e

/-- The left-to-right short-circuiting `or` chain over the nine accesses of
`contains_point`. -/
def containsPointAux (M : SpMat) : List (ℤ × ℤ) → Except String Bool
  | [] => .ok false
  | p :: rest =>
    match pyGet M p.1 p.2 with
    | .error e => .error e
    | .ok v => if 0 < v then .ok true else containsPointAux M rest

/-- `Location.contains_point(lon, lat)`: bisect the query point into the
grid and test the 3 × 3 neighbourhood, in source order with Python `or`
short-circuiting. -/
def Loc.contains_point (L : Loc) (lon lat : ℚ) : Except String Bool :=
  let i : ℤ := (bisect_left L.longitudes lon : ℤ)
  let j : ℤ := (bisect_left L.latitudes lat : ℤ)
  containsPointAux L.probability
    [(i - 1, j - 1), (i, j - 1), (i + 1, j - 1),
     (i - 1, j), (i, j), (i + 1, j),
     (i - 1, j + 1), (i, j + 1), (i + 1, j + 1)]

/-- The memo-cell state of a `Location`: the `_probability`, `_vacuous`,
`_bounds`, `_centroid`, `_covariance`, `_rep_pt` and `_area` fields, each
`none` until first computed.  The covariance payload is a single rational
standing for the opaque 3 × 3 geocentric matrix. -/
structure LocCache where
  probF : Option SpMat
  vacF : Option Bool
  boundsF : Option Region
  centroidF : Option (ℚ × ℚ)
  covF : Option ℚ
  repPtF : Option (ℚ × ℚ)
  areaF : Option ℚ

/-- The computations the lazy properties dispatch to.  `cpmw` is the
polymorphic `compute_probability_matrix_within` hook; `centroidCov`,
`repPtOf` and `tileArea` stand for the external geodesy/projection loops
whose numeric outputs the caching layer stores. -/
structure LocOps where
  computeBounds : Unit → Region
  cpmw : Region → SpMat × Bool
  centroidCov : SpMat → (ℚ × ℚ) × ℚ
  repPtOf : (ℚ × ℚ) → SpMat → (ℚ × ℚ)
  tileArea : ℚ → ℚ → ℚ → ℚ → ℚ
  longitudes : List ℚ
  latitudes : List ℚ

/-- The `bounds` property: return the cache, or run
`compute_bounding_region_now` once and store the result.  The returned
flag records whether the underlying computation ran. -/
def getBounds (ops : LocOps) (st : LocCache) : Region × LocCache × Bool :=
  match st.boundsF with
  | some b => (b, st, false)
  | none =>
    let b := ops.computeBounds ()
    (b, { st with boundsF := some b }, true)

/-- The `probability` property: return the cache, or run
`compute_probability_matrix_now` (which pulls `bounds` and stores both the
matrix and the vacuity flag). -/
def getProbability (ops : LocOps) (st : LocCache) : SpMat × LocCache × Bool :=
  match st.probF with
  | some M => (M, st, false)
  | none =>
    let bst := getBounds ops st
    let mv := ops.cpmw bst.1
    (mv.1, { bst.2.1 with probF := some mv.1, vacF := some mv.2 }, true)

/-- The `vacuous` property.  When `_vacuous` is unset but `_probability` is
already set, `compute_probability_matrix_now` returns immediately and the
property yields Python `None` (modelled as `none`) without running the
matrix computation. -/
def getVacuous (ops : LocOps) (st : LocCache) : Option Bool × LocCache × Bool :=
  match st.vacF with
  | some v => (some v, st, false)
  | none =>
    match st.probF with
    | some _ => (none, st, false)
    | none =>
      let bst := getBounds ops st
      let mv := ops.cpmw bst.1
      (some mv.2, { bst.2.1 with probF := some mv.1, vacF := some mv.2 }, true)

/-- The `centroid` property: `compute_centroid_now` pulls `probability` and
stores both the centroid and the covariance. -/
def getCentroid (ops : LocOps) (st : LocCache) : (ℚ × ℚ) × LocCache × Bool :=
  match st.centroidF with
  | some c => (c, st, false)
  | none =>
    let pst := getProbability ops st
    let cc := ops.centroidCov pst.1
    (cc.1, { pst.2.1 with centroidF := some cc.1, covF := some cc.2 }, true)

/-- The `covariance` property.  When `_covariance` is unset but `_centroid`
is already set, `compute_centroid_now` returns immediately and the property
yields Python `None` without running the computation. -/
def getCovariance (ops : LocOps) (st : LocCache) : Option ℚ × LocCache × Bool :=
  match st.covF with
  | some cv => (some cv, st, false)
  | none =>
    match st.centroidF with
    | some _ => (none, st, false)
    | none =>
      let pst := getProbability ops st
      let cc := ops.centroidCov pst.1
      (some cc.2, { pst.2.1 with centroidF := some cc.1, covF := some cc.2 }, true)

/-- The `rep_pt` property: pulls `centroid` and `probability`, then runs the
streaming maximum-probability search and stores its result. -/
def getRepPt (ops : LocOps) (st : LocCache) : (ℚ × ℚ) × LocCache × Bool :=
  match st.repPtF with
  | some p => (p, st, false)
  | none =>
    let cst := getCentroid ops st
    let pst := getProbability ops cst.2.1
    let p := ops.repPtOf cst.1 pst.1
    (p, { pst.2.1 with repPtF := some p }, true)

/-- The per-cell summation of `Location.area` after the zero-total early
return: weights renormalized to per-cell (value / total × nonzero count)
times the equal-area tile area. -/
def areaLoop (ops : LocOps) (M : SpMat) (S : ℚ) : ℚ :=
  let west := ops.longitudes.getD 0 0
  let east := ops.longitudes.getD 1 0
  let d_lat := (ops.latitudes.getD 1 0 - ops.latitudes.getD 0 0) / 2
  let nnz : ℕ := (M.rowMajorVals.filter (fun v => v != 0)).length
  ∑ i ∈ Finset.range M.nlon, ∑ j ∈ Finset.range M.nlat,
    if M.entry i j ≠ 0 then
      (M.entry i j / S * (nnz : ℚ)) *
        ops.tileArea west (ops.latitudes.getD j 0 - d_lat) east
          (ops.latitudes.getD j 0 + d_lat)
    else 0

/-- The `area` property.  Faithful to the source: when the stored values
sum to zero the method returns 0 directly and `_area` is never assigned,
so the computation reruns on every access. -/
def getArea (ops : LocOps) (st : LocCache) : ℚ × LocCache × Bool :=
  match st.areaF with
  | some a => (a, st, false)
  | none =>
    let pst := getProbability ops st
    let S := pst.1.total
    if S = 0 then (0, pst.2.1, true)
    else
      let a := areaLoop ops pst.1 S
      (a, { pst.2.1 with areaF := some a }, true)

/-- True iff an intersection call raised. -/
def isErr (e : Except String Loc) : Bool :=
  match e with
  | .error _ => true
  | .ok _ => false

/-- The vacuity flag of a successful intersection result. -/
def okVac (e : Except String Loc) : Option Bool :=
  match e with
  | .ok C => some C.vacuous
  | .error _ => none

/-- One probability entry of a successful intersection result. -/
def okEntry (e : Except String Loc) (i j : ℕ) : Option ℚ :=
  match e with
  | .ok C => some (C.probability.entry i j)
  | .error _ => none

/-- The probability total of a successful intersection or map load. -/
def okTotal (e : Except String Loc) : Option ℚ :=
  match e with
  | .ok C => some C.probability.total
  | .error _ => none

/-- True iff a lazy matrix load completed without raising. -/
def isOkLoad (e : Except String LoadedPM) : Bool :=
  match e with
  | .ok _ => true
  | .error _ => false

/-- A vacuous location on the shared 2 × 1 test grid. -/
def locVac : Loc :=
  { resolution := 100, fuzz := 0, north := 0, south := 0, east := 10, west := 0,
    lon_spacing := 10, lat_spacing := 10, longitudes := [0, 10], latitudes := [0],
    probability := zeroMat 2 1, vacuous := true, bounds := some ⟨0, 0, 10, 0⟩ }

/-- A non-vacuous location on the same grid with all mass in cell (0, 0). -/
def locOne : Loc :=
  { locVac with
    probability := ⟨2, 1, fun i _ => if i = 0 then 1 else 0⟩, vacuous := false }

/-- A non-vacuous location with a non-uniform matrix (1/4, 3/4). -/
def locSkew : Loc :=
  { locVac with
    probability := ⟨2, 1, fun i _ => if i = 0 then 1 / 4 else if i = 1 then 3 / 4 else 0⟩,
    vacuous := false }

/-- A non-vacuous location with a uniform matrix (1/2, 1/2). -/
def locEven : Loc :=
  { locVac with
    probability := ⟨2, 1, fun i _ => if i ≤ 1 then 1 / 2 else 0⟩, vacuous := false }

/-- A single-cell location with all mass in its only cell. -/
def locSingle : Loc :=
  { resolution := 100, fuzz := 0, north := 0, south := 0, east := 0, west := 0,
    lon_spacing := 10, lat_spacing := 10, longitudes := [0], latitudes := [0],
    probability := ⟨1, 1, fun _ _ => 1⟩, vacuous := false,
    bounds := some ⟨0, 0, 0, 0⟩ }

/-- A location identical to `locOne` in all eight scalar grid parameters
but with a different longitude vector. -/
def locOtherLons : Loc :=
  { locOne with longitudes := [0, 9] }

/-- A 2 × 3 grid location whose only mass sits in cell (1, 1) — the
eastern column — used against `contains_point`. -/
def locFarEast : Loc :=
  { resolution := 100, fuzz := 0, north := 20, south := 0, east := 10, west := 0,
    lon_spacing := 10, lat_spacing := 10,
    longitudes := [0, 10], latitudes := [0, 10, 20],
    probability := ⟨2, 3, fun i j => if i = 1 ∧ j = 1 then 1 else 0⟩,
    vacuous := false, bounds := some ⟨0, 0, 10, 20⟩ }

/-- The same grid as `locFarEast` with an all-zero matrix. -/
def locFarEastZero : Loc :=
  { locFarEast with probability := zeroMat 2 3, vacuous := true }

/-- Concrete lazy-property computations for the cache model. -/
def ops0 : LocOps :=
  { computeBounds := fun _ => none,
    cpmw := fun _ => (zeroMat 1 1, true),
    centroidCov := fun _ => ((0, 0), 0),
    repPtOf := fun _ _ => (0, 0),
    tileArea := fun _ _ _ _ => 0,
    longitudes := [0], latitudes := [0] }

/-- A cache state whose probability matrix is materialized and identically
zero, with `_area` unset. -/
def stZero : LocCache :=
  { probF := some (zeroMat 1 1), vacF := some true,
    boundsF := some (some ⟨0, 0, 0, 0⟩),
    centroidF := none, covF := none, repPtF := none, areaF := none }

/-- A cache state whose probability matrix is materialized with total mass
1, with `_area` unset. -/
def stOne : LocCache :=
  { probF := some ⟨1, 1, fun _ _ => 1⟩, vacF := some false,
    boundsF := some (some ⟨0, 0, 0, 0⟩),
    centroidF := none, covF := none, repPtF := none, areaF := none }

/-- A concrete observation context: identity-like geodesic stand-in and a
constant ranging value. -/
def obsCtx0 : ObsCtx :=
  { longitudes := [0, 10], latitudes := [0],
    ref_lon := 0, ref_lat := 0,
    geodist := fun _ _ a _ => a,
    pvalsFn := fun _ => 1,
    obsBounds := some ⟨0, 0, 10, 0⟩ }

/-- The probability-matrix invariant of a `(matrix, vacuous)` pair: entries
non-negative, total 0 when vacuous and 1 otherwise. -/
def PmfPair (MV : SpMat × Bool) : Prop :=
  MV.1.Nonneg ∧ MV.1.total = if MV.2 then 0 else 1

/-- Well-formedness of a materialized `Location`: non-negative entries,
matrix dimensions matching the grid vectors, and a vacuous flag implying
zero total mass. -/
def Loc.WF (L : Loc) : Prop :=
  L.probability.Nonneg ∧
    L.probability.nlon = L.longitudes.length ∧
    L.probability.nlat = L.latitudes.length ∧
    (L.vacuous = true → L.probability.total = 0)

/-- Unwrap a successful observation matrix computation. -/
def getOkMV (e : Except String (SpMat × Bool)) : SpMat × Bool :=
  match e with
  | .ok mv => mv
  | .error _ => (zeroMat 0 0, true)

/-- Unwrap a successful intersection or map construction. -/
def getOkLoc (e : Except String Loc) : Loc :=
  match e with
  | .ok C => C
  | .error _ => locVac

/-- The error message of a failed matrix load, if any. -/
def loadErrMsg (e : Except String LoadedPM) : Option String :=
  match e with
  | .error s => some s
  | .ok _ => none

/-- The boolean result of a successful `contains_point` call, if any. -/
def cpOut (e : Except String Bool) : Option Bool :=
  match e with
  | .ok b => some b
  | .error _ => none

/-- The error message of a failed `contains_point` call, if any. -/
def cpErrMsg (e : Except String Bool) : Option String :=
  match e with
  | .error s => some s
  | .ok _ => none

theorem zeroMat_total (n m : ℕ) : (zeroMat n m).total = 0 := by
  simp [SpMat.total, zeroMat]

theorem zeroMat_nonneg (n m : ℕ) : (zeroMat n m).Nonneg := by
  intro i _ j _
  simp [zeroMat]

theorem total_scaleInv (M : SpMat) (s : ℚ) : (M.scaleInv s).total = M.total / s := by
  simp [SpMat.total, SpMat.scaleInv, Finset.sum_div]

theorem scaleInv_nonneg (M : SpMat) (s : ℚ) (hs : 0 ≤ s) (h : M.Nonneg) :
    (M.scaleInv s).Nonneg := by
  intro i hi j hj
  exact div_nonneg (h i hi j hj) hs

theorem total_nonneg (M : SpMat) (h : M.Nonneg) : 0 ≤ M.total := by
  simp only [SpMat.total]
  refine Finset.sum_nonneg fun i hi => Finset.sum_nonneg fun j hj => ?_
  exact h i (Finset.mem_range.mp hi) j (Finset.mem_range.mp hj)

theorem transpose_total (M : SpMat) : M.transpose.total = M.total := by
  simp only [SpMat.total, SpMat.transpose]
  exact Finset.sum_comm

theorem transpose_nonneg (M : SpMat) (h : M.Nonneg) : M.transpose.Nonneg := by
  intro i hi j hj
  exact h j hj i hi

theorem maskHad_nonneg (r : Rect) (lons lats : List ℚ) (P : SpMat)
    (hP : P.Nonneg) (h1 : P.nlon = lons.length) (h2 : P.nlat = lats.length) :
    ((mask_matrix r lons lats).hadamard P).Nonneg := by
  intro i hi j hj
  have hi2 : i < P.nlon := by rw [h1]; exact hi
  have hj2 : j < P.nlat := by rw [h2]; exact hj
  by_cases hc : inMaskIJ r lons lats i j = true
  · simpa [SpMat.hadamard, mask_matrix, hc] using hP i hi2 j hj2
  · simp [SpMat.hadamard, mask_matrix, hc]

theorem cpmw_vac (L : Loc) (bounds : Region) (h : L.vacuous = true) :
    L.compute_probability_matrix_within bounds = (L.probability, true) := by
  simp [Loc.compute_probability_matrix_within, h]

theorem cpmw_empty (L : Loc) (h : L.vacuous = false) :
    L.compute_probability_matrix_within none =
      (zeroMat L.longitudes.length L.latitudes.length, true) := by
  simp [Loc.compute_probability_matrix_within, h]

theorem cpmw_pos (L : Loc) (r : Rect) (h : L.vacuous = false)
    (hs : ((mask_matrix r L.longitudes L.latitudes).hadamard L.probability).total ≠ 0) :
    L.compute_probability_matrix_within (some r) =
      (((mask_matrix r L.longitudes L.latitudes).hadamard L.probability).scaleInv
        ((mask_matrix r L.longitudes L.latitudes).hadamard L.probability).total,
       false) := by
  simp [Loc.compute_probability_matrix_within, h, hs]

theorem cpmw_zero (L : Loc) (r : Rect) (h : L.vacuous = false)
    (hs : ((mask_matrix r L.longitudes L.latitudes).hadamard L.probability).total = 0) :
    L.compute_probability_matrix_within (some r) =
      ((mask_matrix r L.longitudes L.latitudes).hadamard L.probability, true) := by
  simp [Loc.compute_probability_matrix_within, h, hs]

/-- The base-class restriction (`compute_probability_matrix_within`) of a
well-formed location satisfies the PMF invariant. -/
theorem cpmw_pmf (L : Loc) (hW : L.WF) (bounds : Region) :
    PmfPair (L.compute_probability_matrix_within bounds) := by
  obtain ⟨hnn, hdl, hdt, hvac⟩ := hW
  cases hv : L.vacuous
  · cases bounds with
    | none =>
      rw [cpmw_empty L hv]
      exact ⟨zeroMat_nonneg _ _, by simp [zeroMat_total]⟩
    | some r =>
      have hMnn : ((mask_matrix r L.longitudes L.latitudes).hadamard L.probability).Nonneg :=
        maskHad_nonneg r _ _ _ hnn hdl hdt
      by_cases hs : ((mask_matrix r L.longitudes L.latitudes).hadamard L.probability).total = 0
      · rw [cpmw_zero L r hv hs]
        exact ⟨hMnn, by simpa using hs⟩
      · rw [cpmw_pos L r hv hs]
        refine ⟨scaleInv_nonneg _ _ (total_nonneg _ hMnn) hMnn, ?_⟩
        simp [total_scaleInv, div_self hs]
  · rw [cpmw_vac L bounds hv]
    exact ⟨hnn, by simpa using hvac hv⟩

theorem cpmw_dims (L : Loc) (h1 : L.probability.nlon = L.longitudes.length)
    (h2 : L.probability.nlat = L.latitudes.length) (bounds : Region) :
    (L.compute_probability_matrix_within bounds).1.nlon = L.longitudes.length ∧
      (L.compute_probability_matrix_within bounds).1.nlat = L.latitudes.length := by
  cases hv : L.vacuous
  · cases bounds with
    | none =>
      rw [cpmw_empty L hv]
      exact ⟨rfl, rfl⟩
    | some r =>
      by_cases hs : ((mask_matrix r L.longitudes L.latitudes).hadamard L.probability).total = 0
      · rw [cpmw_zero L r hv hs]
        exact ⟨rfl, rfl⟩
      · rw [cpmw_pos L r hv hs]
        exact ⟨rfl, rfl⟩
  · rw [cpmw_vac L bounds hv]
    exact ⟨h1, h2⟩

theorem fastPath_mem (M1 M2 M : SpMat) (h : fastPath M1 M2 = some M) :
    M = M1 ∨ M = M2 := by
  unfold fastPath at h
  split at h
  · split at h
    · split at h
      · exact Or.inr ((Option.some.injEq _ _).mp h).symm
      · split at h
        · split at h
          · exact Or.inl ((Option.some.injEq _ _).mp h).symm
          · exact absurd h (by simp)
        · exact absurd h (by simp)
    · exact absurd h (by simp)
  · exact absurd h (by simp)

theorem combinePM_v1 (MV1 MV2 : SpMat × Bool) (h : MV1.2 = true) :
    combinePM MV1 MV2 = (MV1.1, true) := by
  simp [combinePM, h]

theorem combinePM_v2 (MV1 MV2 : SpMat × Bool) (h1 : MV1.2 = false) (h2 : MV2.2 = true) :
    combinePM MV1 MV2 = (MV2.1, true) := by
  simp [combinePM, h1, h2]

theorem combinePM_fast (MV1 MV2 : SpMat × Bool) (M : SpMat)
    (h1 : MV1.2 = false) (h2 : MV2.2 = false) (hf : fastPath MV1.1 MV2.1 = some M) :
    combinePM MV1 MV2 = (M, false) := by
  simp [combinePM, h1, h2, hf]

theorem combinePM_prod_pos (MV1 MV2 : SpMat × Bool)
    (h1 : MV1.2 = false) (h2 : MV2.2 = false) (hf : fastPath MV1.1 MV2.1 = none)
    (hs : (MV1.1.hadamard MV2.1).total ≠ 0) :
    combinePM MV1 MV2 =
      ((MV1.1.hadamard MV2.1).scaleInv (MV1.1.hadamard MV2.1).total, false) := by
  simp [combinePM, h1, h2, hf, hs]

theorem combinePM_prod_zero (MV1 MV2 : SpMat × Bool)
    (h1 : MV1.2 = false) (h2 : MV2.2 = false) (hf : fastPath MV1.1 MV2.1 = none)
    (hs : (MV1.1.hadamard MV2.1).total = 0) :
    combinePM MV1 MV2 = (MV1.1.hadamard MV2.1, true) := by
  simp [combinePM, h1, h2, hf, hs]

/-- The matrix-combination step preserves the PMF invariant. -/
theorem combinePM_pmf (MV1 MV2 : SpMat × Bool) (h1 : PmfPair MV1) (h2 : PmfPair MV2)
    (hd1 : MV1.1.nlon = MV2.1.nlon) (hd2 : MV1.1.nlat = MV2.1.nlat) :
    PmfPair (combinePM MV1 MV2) := by
  cases hv1 : MV1.2
  · cases hv2 : MV2.2
    · cases hf : fastPath MV1.1 MV2.1 with
      | some M =>
        rw [combinePM_fast MV1 MV2 M hv1 hv2 hf]
        rcases fastPath_mem MV1.1 MV2.1 M hf with h | h <;> subst h
        · exact ⟨h1.1, by simpa [hv1] using h1.2⟩
        · exact ⟨h2.1, by simpa [hv2] using h2.2⟩
      | none =>
        have hnn : (MV1.1.hadamard MV2.1).Nonneg := by
          intro i hi j hj
          refine mul_nonneg (h1.1 i hi j hj) (h2.1 i ?_ j ?_)
          · rw [← hd1]; exact hi
          · rw [← hd2]; exact hj
        by_cases hs : (MV1.1.hadamard MV2.1).total = 0
        · rw [combinePM_prod_zero MV1 MV2 hv1 hv2 hf hs]
          exact ⟨hnn, by simpa using hs⟩
        · rw [combinePM_prod_pos MV1 MV2 hv1 hv2 hf hs]
          refine ⟨scaleInv_nonneg _ _ (total_nonneg _ hnn) hnn, ?_⟩
          simp [total_scaleInv, div_self hs]
    · rw [combinePM_v2 MV1 MV2 hv1 hv2]
      exact ⟨h2.1, by simpa [hv2] using h2.2⟩
  · rw [combinePM_v1 MV1 MV2 hv1]
    exact ⟨h1.1, by simpa [hv1] using h1.2⟩

/-- Anatomy of a successful intersection: the grids agreed and the result
carries the combined matrix, vacuity flag and intersected bounds. -/
theorem intersection_ok (A B : Loc) (boundsArg : Option Region) (C : Loc)
    (hok : A.intersection B boundsArg = .ok C) :
    A.sameGrid B = true ∧
      C.probability =
        (combinePM
          (A.compute_probability_matrix_within
            (boundsArg.getD (Region.inter A.bounds B.bounds)))
          (B.compute_probability_matrix_within
            (boundsArg.getD (Region.inter A.bounds B.bounds)))).1 ∧
      C.vacuous =
        (combinePM
          (A.compute_probability_matrix_within
            (boundsArg.getD (Region.inter A.bounds B.bounds)))
          (B.compute_probability_matrix_within
            (boundsArg.getD (Region.inter A.bounds B.bounds)))).2 := by
  unfold Loc.intersection at hok
  by_cases hg : A.sameGrid B = true
  · rw [if_neg (not_not_intro hg)] at hok
    injection hok with h
    rw [← h]
    exact ⟨hg, rfl, rfl⟩
  · rw [if_pos hg] at hok
    exact absurd hok (by simp)

/-- A freshly constructed `Map` is non-vacuous with a non-negative matrix
of total mass 1, provided the stored baseline is non-negative. -/
theorem mapInit_pmf (baseline : SpMat) (lons lats : List ℚ)
    (resolution fuzz north south east west lon_spacing lat_spacing : ℚ)
    (hb : baseline.Nonneg) (m : Loc)
    (hok : mapInit baseline lons lats resolution fuzz north south east west
      lon_spacing lat_spacing = .ok m) :
    m.vacuous = false ∧ m.probability.Nonneg ∧ m.probability.total = 1 := by
  unfold mapInit at hok
  by_cases hsh1 : baseline.nlon = lons.length
  · simp only [hsh1, if_true] at hok
    by_cases hs : 0 < baseline.total
    · simp only [hs, if_true] at hok
      injection hok with h
      rw [← h]
      refine ⟨rfl, scaleInv_nonneg _ _ (le_of_lt hs) hb, ?_⟩
      simp [total_scaleInv, div_self (ne_of_gt hs)]
    · simp only [hs, if_false] at hok
      exact absurd hok (by simp)
  · by_cases hsh2 : baseline.nlat = lons.length
    · simp only [hsh1, hsh2, if_false, if_true] at hok
      by_cases hs : 0 < baseline.transpose.total
      · simp only [hs, if_true] at hok
        injection hok with h
        rw [← h]
        refine ⟨rfl, scaleInv_nonneg _ _ (le_of_lt hs) (transpose_nonneg _ hb), ?_⟩
        simp [total_scaleInv, div_self (ne_of_gt hs)]
      · simp only [hs, if_false] at hok
        exact absurd hok (by simp)
    · simp only [hsh1, hsh2, if_false] at hok
      exact absurd hok (by simp)

/-- A successful observation matrix computation satisfies the PMF
invariant whenever the ranging function is pointwise non-negative. -/
theorem obs_cpmw_pmf (ctx : ObsCtx) (hpv : ∀ d, 0 ≤ ctx.pvalsFn d)
    (bounds : Region) (MV : SpMat × Bool)
    (hok : Observation.compute_probability_matrix_within ctx bounds = .ok MV) :
    PmfPair MV := by
  unfold Observation.compute_probability_matrix_within at hok
  split at hok
  · injection hok with h
    rw [← h]
    exact ⟨zeroMat_nonneg _ _, by simp [zeroMat_total]⟩
  · split at hok
    · exact absurd hok (by simp)
    · next r _ =>
      split at hok
      · next hs =>
        injection hok with h
        rw [← h]
        have hs0 : 0 ≤ obsTotal ctx r := by
          refine Finset.sum_nonneg fun i _ => Finset.sum_nonneg fun j _ => ?_
          by_cases hc : inMaskIJ r ctx.longitudes ctx.latitudes i j = true
          · simpa [hc] using hpv _
          · simp [hc]
        constructor
        · intro i _ j _
          by_cases hc : inMaskIJ r ctx.longitudes ctx.latitudes i j = true
          · simpa [hc] using div_nonneg (hpv _) hs0
          · simp [hc]
        · have hsplit : ∀ i j,
              (if inMaskIJ r ctx.longitudes ctx.latitudes i j then
                obsPv ctx i j / obsTotal ctx r else 0) =
              (if inMaskIJ r ctx.longitudes ctx.latitudes i j then
                obsPv ctx i j else 0) / obsTotal ctx r := by
            intro i j
            split
            · rfl
            · simp
          show (∑ i ∈ Finset.range ctx.longitudes.length,
              ∑ j ∈ Finset.range ctx.latitudes.length,
                if inMaskIJ r ctx.longitudes ctx.latitudes i j then
                  obsPv ctx i j / obsTotal ctx r else 0) = if false then 0 else 1
          simp only [hsplit, ← Finset.sum_div, if_false]
          exact div_self hs
      · injection hok with h
        rw [← h]
        exact ⟨zeroMat_nonneg _ _, by simp [zeroMat_total]⟩

/-- Every successful `intersection` of two well-formed locations on equal
grid vectors yields a matrix satisfying the PMF invariant. -/
theorem intersection_pmf (A B : Loc) (hA : A.WF) (hB : B.WF)
    (hlon : A.longitudes.length = B.longitudes.length)
    (hlat : A.latitudes.length = B.latitudes.length)
    (boundsArg : Option Region) (C : Loc)
    (hok : A.intersection B boundsArg = .ok C) :
    PmfPair (C.probability, C.vacuous) := by
  obtain ⟨hg, hP, hV⟩ := intersection_ok A B boundsArg C hok
  have h1 := cpmw_pmf A hA (boundsArg.getD (Region.inter A.bounds B.bounds))
  have h2 := cpmw_pmf B hB (boundsArg.getD (Region.inter A.bounds B.bounds))
  have d1 := cpmw_dims A hA.2.1 hA.2.2.1 (boundsArg.getD (Region.inter A.bounds B.bounds))
  have d2 := cpmw_dims B hB.2.1 hB.2.2.1 (boundsArg.getD (Region.inter A.bounds B.bounds))
  have hc := combinePM_pmf _ _ h1 h2 (by rw [d1.1, d2.1, hlon]) (by rw [d1.2, d2.2, hlat])
  rw [hP, hV]
  exact hc

/-- C1: the probability-matrix invariant — non-negative entries with total
1 when non-vacuous and 0 when vacuous — holds for (1) a `Map` at
construction, (2) the base-class restriction of a well-formed known
matrix, (3) an `Observation` restricted matrix under a non-negative
ranging function, and (4) every result of `intersection`. -/
theorem claim_C1 :
    (∀ baseline lons lats resolution fuzz north south east west lon_spacing
        lat_spacing m, SpMat.Nonneg baseline →
        mapInit baseline lons lats resolution fuzz north south east west
          lon_spacing lat_spacing = .ok m →
        m.vacuous = false ∧ m.probability.Nonneg ∧ m.probability.total = 1) ∧
      (∀ L : Loc, L.WF → ∀ bounds,
        PmfPair (L.compute_probability_matrix_within bounds)) ∧
      (∀ ctx : ObsCtx, (∀ d, 0 ≤ ctx.pvalsFn d) → ∀ bounds MV,
        Observation.compute_probability_matrix_within ctx bounds = .ok MV →
        PmfPair MV) ∧
      (∀ A B : Loc, A.WF → B.WF →
        A.longitudes.length = B.longitudes.length →
        A.latitudes.length = B.latitudes.length →
        ∀ boundsArg C, A.intersection B boundsArg = .ok C →
        PmfPair (C.probability, C.vacuous)) :=
  ⟨fun b lo la r f n s e w losp lasp m hb hok =>
      mapInit_pmf b lo la r f n s e w losp lasp hb m hok,
   fun L hW bounds => cpmw_pmf L hW bounds,
   fun ctx hpv bounds MV hok => obs_cpmw_pmf ctx hpv bounds MV hok,
   fun A B hA hB hlon hlat ba C hok => intersection_pmf A B hA hB hlon hlat ba C hok⟩

/-- C1 witness: each of the four parts instantiated at a concrete input —
a 1 × 1 map with raw mass 2, the base-class restriction of `locOne`, the
constant-1 ranging function of `obsCtx0`, and the self-intersection of
`locOne`. -/
theorem claim_C1_witness :
    ((getOkLoc (mapInit ⟨1, 1, fun _ _ => 2⟩ [0] [0] 1 0 0 0 0 0 1 1)).vacuous = false ∧
      (getOkLoc (mapInit ⟨1, 1, fun _ _ => 2⟩ [0] [0] 1 0 0 0 0 0 1 1)).probability.Nonneg ∧
      (getOkLoc (mapInit ⟨1, 1, fun _ _ => 2⟩ [0] [0] 1 0 0 0 0 0 1 1)).probability.total = 1) ∧
    PmfPair (locOne.compute_probability_matrix_within (some ⟨0, 0, 10, 0⟩)) ∧
    PmfPair (getOkMV (Observation.compute_probability_matrix_within obsCtx0
      (some ⟨0, 0, 10, 0⟩))) ∧
    PmfPair ((getOkLoc (locOne.intersection locOne none)).probability,
      (getOkLoc (locOne.intersection locOne none)).vacuous) := by
  have hWone : locOne.WF := by
    refine ⟨?_, rfl, rfl, ?_⟩
    · intro i _ j _
      simp only [locOne, locVac]
      split <;> norm_num
    · intro h
      simp [locOne, locVac] at h
  refine ⟨?_, ?_, ?_, ?_⟩
  · have hok : mapInit (⟨1, 1, fun _ _ => 2⟩ : SpMat) [0] [0] 1 0 0 0 0 0 1 1 =
        .ok (getOkLoc (mapInit (⟨1, 1, fun _ _ => 2⟩ : SpMat) [0] [0] 1 0 0 0 0 0 1 1)) := by
      norm_num [mapInit, getOkLoc, SpMat.total, Finset.sum_range_succ, Finset.sum_range_zero]
    exact claim_C1.1 _ _ _ _ _ _ _ _ _ _ _ _ (by intro i _ j _; norm_num) hok
  · exact claim_C1.2.1 locOne hWone (some ⟨0, 0, 10, 0⟩)
  · have hok : Observation.compute_probability_matrix_within obsCtx0 (some ⟨0, 0, 10, 0⟩) =
        .ok (getOkMV (Observation.compute_probability_matrix_within obsCtx0
          (some ⟨0, 0, 10, 0⟩))) := by
      norm_num [Observation.compute_probability_matrix_within, getOkMV, obsCtx0,
        Region.inter, Rect.inter, obsTotal, obsPv, inMaskIJ, bisect_left, bisect_right,
        Finset.sum_range_succ, Finset.sum_range_zero,
        List.countP_cons, List.countP_nil, Finset.filter_singleton, Finset.card_singleton]
    exact claim_C1.2.2.1 obsCtx0 (by intro d; norm_num [obsCtx0]) _ _ hok
  · obtain ⟨C, hC⟩ : ∃ C, locOne.intersection locOne none = .ok C := ⟨_, rfl⟩
    have h := claim_C1.2.2.2 locOne locOne hWone hWone rfl rfl none C hC
    rw [hC]
    simpa only [getOkLoc] using h

theorem mem_rowMajorVals (M : SpMat) (v : ℚ) :
    v ∈ M.rowMajorVals ↔ ∃ i, i < M.nlon ∧ ∃ j, j < M.nlat ∧ M.entry i j = v := by
  simp only [SpMat.rowMajorVals, List.mem_flatMap, List.mem_map, List.mem_range]

theorem exists_nonzero_of_total_ne (M : SpMat) (h : M.total ≠ 0) :
    ∃ i, i < M.nlon ∧ ∃ j, j < M.nlat ∧ M.entry i j ≠ 0 := by
  by_contra hall
  push_neg at hall
  apply h
  simp only [SpMat.total]
  refine Finset.sum_eq_zero fun i hi => Finset.sum_eq_zero fun j hj => ?_
  exact hall i (Finset.mem_range.mp hi) j (Finset.mem_range.mp hj)

theorem firstNonzero_of_total_ne (M : SpMat) (h : M.total ≠ 0) :
    ∃ v, M.firstNonzero = some v := by
  obtain ⟨i, hi, j, hj, hne⟩ := exists_nonzero_of_total_ne M h
  have hmem : ∃ x ∈ M.rowMajorVals, (x != 0) = true :=
    ⟨M.entry i j, (mem_rowMajorVals M _).mpr ⟨i, hi, j, hj, rfl⟩, by simpa using hne⟩
  exact Option.isSome_iff_exists.mp (List.find?_isSome.mpr hmem)

theorem firstNonzero_spec (M : SpMat) (v : ℚ) (h : M.firstNonzero = some v) :
    v ≠ 0 ∧ ∃ i, i < M.nlon ∧ ∃ j, j < M.nlat ∧ M.entry i j = v := by
  constructor
  · simpa using List.find?_some h
  · exact (mem_rowMajorVals M v).mp (List.mem_of_find?_eq_some h)

theorem samePattern_self (M : SpMat) : M.samePattern M = true := by
  simp [SpMat.samePattern, List.all_eq_true]

theorem allcloseConst_of_uniform (M : SpMat) (c : ℚ)
    (hU : ∀ i, i < M.nlon → ∀ j, j < M.nlat → M.entry i j ≠ 0 → M.entry i j = c) :
    M.allcloseConst c = true := by
  rw [SpMat.allcloseConst, List.all_eq_true]
  intro v hv
  by_cases h0 : v = 0
  · simp [h0]
  · obtain ⟨i, hi, j, hj, hij⟩ := (mem_rowMajorVals M v).mp hv
    have hvc : v = c := by
      rw [← hij]
      exact hU i hi j hj (by rw [hij]; exact h0)
    subst hvc
    have : ratAllclose v v = true := by
      simp only [ratAllclose, decide_eq_true_eq, sub_self, abs_zero]
      positivity
    simp [this]

/-- Self-combination with an exactly uniform non-vacuous matrix takes the
near-uniform fast path and returns the matrix unchanged. -/
theorem combinePM_uniform (MV : SpMat × Bool) (c : ℚ) (hv : MV.2 = false)
    (hne : MV.1.total ≠ 0)
    (hU : ∀ i, i < MV.1.nlon → ∀ j, j < MV.1.nlat →
      MV.1.entry i j ≠ 0 → MV.1.entry i j = c) :
    combinePM MV MV = (MV.1, false) := by
  obtain ⟨v, hfn⟩ := firstNonzero_of_total_ne MV.1 hne
  obtain ⟨hv0, i, hi, j, hj, hij⟩ := firstNonzero_spec MV.1 v hfn
  have hvc : v = c := by
    rw [← hij]
    exact hU i hi j hj (by rw [hij]; exact hv0)
  have hclose : MV.1.allcloseConst v = true := by
    rw [hvc]
    exact allcloseConst_of_uniform MV.1 c hU
  have hfast : fastPath MV.1 MV.1 = some MV.1 := by
    unfold fastPath
    rw [samePattern_self, if_pos rfl, hfn]
    simp [hclose]
  exact combinePM_fast MV MV MV.1 hv hv hfast

/-- C3 (amended): in `intersection`, when the self-side restricted matrix
is vacuous the result carries that (vacuous) matrix and is marked vacuous
regardless of the other side; when only the other side is vacuous the
result carries the other side's matrix and is vacuous.  Vacuity is thus
absorbing, not "the result is the other matrix and non-vacuous". -/
theorem claim_C3 (A B : Loc) (boundsArg : Option Region) (C : Loc)
    (hok : A.intersection B boundsArg = .ok C) :
    ((A.compute_probability_matrix_within
        (boundsArg.getD (Region.inter A.bounds B.bounds))).2 = true →
      C.vacuous = true ∧
        C.probability = (A.compute_probability_matrix_within
          (boundsArg.getD (Region.inter A.bounds B.bounds))).1) ∧
    ((A.compute_probability_matrix_within
        (boundsArg.getD (Region.inter A.bounds B.bounds))).2 = false →
      (B.compute_probability_matrix_within
        (boundsArg.getD (Region.inter A.bounds B.bounds))).2 = true →
      C.vacuous = true ∧
        C.probability = (B.compute_probability_matrix_within
          (boundsArg.getD (Region.inter A.bounds B.bounds))).1) := by
  obtain ⟨hg, hP, hV⟩ := intersection_ok A B boundsArg C hok
  constructor
  · intro h1
    rw [hP, hV, combinePM_v1 _ _ h1]
    exact ⟨rfl, rfl⟩
  · intro h1 h2
    rw [hP, hV, combinePM_v2 _ _ h1 h2]
    exact ⟨rfl, rfl⟩

/-- C3 witness: intersecting a vacuous location with a non-vacuous one on
the same grid follows the first vacuity branch. -/
theorem claim_C3_witness :
    okVac (locVac.intersection locOne none) = some true ∧
      okEntry (locVac.intersection locOne none) 0 0 =
        some ((locVac.compute_probability_matrix_within
          (Region.inter locVac.bounds locOne.bounds)).1.entry 0 0) := by
  obtain ⟨C, hC⟩ : ∃ C, locVac.intersection locOne none = .ok C := ⟨_, rfl⟩
  have h1 : (locVac.compute_probability_matrix_within
      ((none : Option Region).getD (Region.inter locVac.bounds locOne.bounds))).2 = true := by
    rw [cpmw_vac locVac _ rfl]
  obtain ⟨hvac, hprob⟩ := (claim_C3 locVac locOne none C hC).1 h1
  constructor
  · rw [hC]
    simp only [okVac]
    rw [hvac]
  · rw [hC]
    simp only [okEntry]
    rw [hprob]
    simp only [Option.getD_none]

/-- C3 counterexample: with a vacuous self side and a non-vacuous other
side, the result is vacuous (the claim says it is vacuous only when both
sides are) and its matrix is the zero matrix, not the other side's
restricted matrix whose entry at (0,0) is 1. -/
theorem claim_C3_counterexample :
    okVac (locVac.intersection locOne none) = some true ∧
      (locOne.compute_probability_matrix_within
        (Region.inter locVac.bounds locOne.bounds)).2 = false ∧
      okEntry (locVac.intersection locOne none) 0 0 = some 0 ∧
      (locOne.compute_probability_matrix_within
        (Region.inter locVac.bounds locOne.bounds)).1.entry 0 0 = 1 ∧
      (0 : ℚ) ≠ 1 := by
  refine ⟨?_, ?_, ?_, ?_, by norm_num⟩ <;>
    norm_num [Loc.intersection, Loc.sameGrid, combinePM, fastPath, okVac, okEntry,
      Loc.compute_probability_matrix_within, locVac, locOne, Region.inter, Rect.inter,
      mask_matrix, inMaskIJ, bisect_left, bisect_right, SpMat.hadamard, SpMat.total,
      SpMat.scaleInv, zeroMat, Finset.sum_range_succ, Finset.sum_range_zero,
      List.countP_cons, List.countP_nil, Finset.filter_singleton, Finset.card_singleton]

/-- C4 (amended): `A.intersection(A)` reproduces `A`'s normalized restricted
matrix when that matrix is uniform on its support (the near-uniform fast
path); in general the result is the renormalized element-wise square, which
differs from `A`'s matrix for non-uniform distributions. -/
theorem claim_C4 (A : Loc) (hW : A.WF) (c : ℚ)
    (hV : (A.compute_probability_matrix_within (Region.inter A.bounds A.bounds)).2 = false)
    (hU : ∀ i, i < (A.compute_probability_matrix_within
        (Region.inter A.bounds A.bounds)).1.nlon →
      ∀ j, j < (A.compute_probability_matrix_within
        (Region.inter A.bounds A.bounds)).1.nlat →
      (A.compute_probability_matrix_within (Region.inter A.bounds A.bounds)).1.entry i j ≠ 0 →
      (A.compute_probability_matrix_within (Region.inter A.bounds A.bounds)).1.entry i j = c)
    (C : Loc) (hok : A.intersection A none = .ok C) :
    C.vacuous = false ∧
      C.probability =
        (A.compute_probability_matrix_within (Region.inter A.bounds A.bounds)).1 := by
  obtain ⟨hg, hP, hV2⟩ := intersection_ok A A none C hok
  simp only [Option.getD_none] at hP hV2
  have hpmf := cpmw_pmf A hW (Region.inter A.bounds A.bounds)
  have hne : (A.compute_probability_matrix_within (Region.inter A.bounds A.bounds)).1.total ≠ 0 := by
    have h2 := hpmf.2
    rw [hV] at h2
    norm_num at h2
    rw [h2]
    norm_num
  have hcomb := combinePM_uniform
    (A.compute_probability_matrix_within (Region.inter A.bounds A.bounds)) c hV hne hU
  rw [hP, hV2, hcomb]
  exact ⟨rfl, rfl⟩

/-- C4 witness: self-intersection of a single-cell location (uniform on
its support) reproduces its normalized matrix. -/
theorem claim_C4_witness :
    okVac (locSingle.intersection locSingle none) = some false ∧
      okEntry (locSingle.intersection locSingle none) 0 0 =
        some ((locSingle.compute_probability_matrix_within
          (Region.inter locSingle.bounds locSingle.bounds)).1.entry 0 0) := by
  obtain ⟨C, hC⟩ : ∃ C, locSingle.intersection locSingle none = .ok C := ⟨_, rfl⟩
  have hW : locSingle.WF := by
    refine ⟨?_, rfl, rfl, ?_⟩
    · intro i _ j _
      norm_num [locSingle]
    · intro h
      simp [locSingle] at h
  have hV : (locSingle.compute_probability_matrix_within
      (Region.inter locSingle.bounds locSingle.bounds)).2 = false := by
    norm_num [Loc.compute_probability_matrix_within, locSingle, Region.inter, Rect.inter,
      mask_matrix, inMaskIJ, bisect_left, bisect_right, SpMat.hadamard, SpMat.total,
      SpMat.scaleInv, Finset.sum_range_succ, Finset.sum_range_zero,
      List.countP_cons, List.countP_nil, Finset.filter_singleton, Finset.card_singleton]
  have hd1 : (locSingle.compute_probability_matrix_within
      (Region.inter locSingle.bounds locSingle.bounds)).1.nlon = 1 := by
    norm_num [Loc.compute_probability_matrix_within, locSingle, Region.inter, Rect.inter,
      mask_matrix, inMaskIJ, bisect_left, bisect_right, SpMat.hadamard, SpMat.total,
      SpMat.scaleInv, Finset.sum_range_succ, Finset.sum_range_zero,
      List.countP_cons, List.countP_nil, Finset.filter_singleton, Finset.card_singleton]
  have hd2 : (locSingle.compute_probability_matrix_within
      (Region.inter locSingle.bounds locSingle.bounds)).1.nlat = 1 := by
    norm_num [Loc.compute_probability_matrix_within, locSingle, Region.inter, Rect.inter,
      mask_matrix, inMaskIJ, bisect_left, bisect_right, SpMat.hadamard, SpMat.total,
      SpMat.scaleInv, Finset.sum_range_succ, Finset.sum_range_zero,
      List.countP_cons, List.countP_nil, Finset.filter_singleton, Finset.card_singleton]
  have hent : (locSingle.compute_probability_matrix_within
      (Region.inter locSingle.bounds locSingle.bounds)).1.entry 0 0 = 1 := by
    norm_num [Loc.compute_probability_matrix_within, locSingle, Region.inter, Rect.inter,
      mask_matrix, inMaskIJ, bisect_left, bisect_right, SpMat.hadamard, SpMat.total,
      SpMat.scaleInv, Finset.sum_range_succ, Finset.sum_range_zero,
      List.countP_cons, List.countP_nil, Finset.filter_singleton, Finset.card_singleton]
  have hU : ∀ i, i < (locSingle.compute_probability_matrix_within
      (Region.inter locSingle.bounds locSingle.bounds)).1.nlon →
      ∀ j, j < (locSingle.compute_probability_matrix_within
        (Region.inter locSingle.bounds locSingle.bounds)).1.nlat →
      (locSingle.compute_probability_matrix_within
        (Region.inter locSingle.bounds locSingle.bounds)).1.entry i j ≠ 0 →
      (locSingle.compute_probability_matrix_within
        (Region.inter locSingle.bounds locSingle.bounds)).1.entry i j = 1 := by
    intro i hi j hj _
    rw [hd1] at hi
    rw [hd2] at hj
    obtain rfl : i = 0 := Nat.lt_one_iff.mp hi
    obtain rfl : j = 0 := Nat.lt_one_iff.mp hj
    exact hent
  obtain ⟨hvac, hprob⟩ := claim_C4 locSingle hW 1 hV hU C hC
  constructor
  · rw [hC]
    simp only [okVac]
    rw [hvac]
  · rw [hC]
    simp only [okEntry]
    rw [hprob]

/-- C4 counterexample: for the non-uniform distribution (1/4, 3/4),
self-intersection renormalizes the element-wise square and yields entry
1/10 where the location's own normalized restricted matrix has 1/4 — far
beyond the numpy closeness tolerance. -/
theorem claim_C4_counterexample :
    okEntry (locSkew.intersection locSkew none) 0 0 = some (1 / 10) ∧
      (locSkew.compute_probability_matrix_within
        (Region.inter locSkew.bounds locSkew.bounds)).1.entry 0 0 = 1 / 4 ∧
      ratAllclose (1 / 10) (1 / 4) = false := by
  refine ⟨?_, ?_, ?_⟩ <;>
    norm_num [Loc.intersection, Loc.sameGrid, combinePM, fastPath, okEntry,
      Loc.compute_probability_matrix_within, locVac, locSkew, Region.inter, Rect.inter,
      mask_matrix, inMaskIJ, bisect_left, bisect_right, SpMat.hadamard, SpMat.total,
      SpMat.scaleInv, SpMat.samePattern, SpMat.firstNonzero, SpMat.rowMajorVals,
      SpMat.allcloseConst, ratAllclose, zeroMat, Finset.sum_range_succ,
      Finset.sum_range_zero, List.countP_cons, List.countP_nil, List.range_succ,
      List.all_cons, List.find?, abs_of_nonneg]

/-- Characterization of the scalar-parameter comparison in
`Location.intersection`. -/
theorem sameGrid_iff (A B : Loc) :
    A.sameGrid B = true ↔
      (A.resolution = B.resolution ∧ A.fuzz = B.fuzz ∧ A.north = B.north ∧
       A.south = B.south ∧ A.east = B.east ∧ A.west = B.west ∧
       A.lon_spacing = B.lon_spacing ∧ A.lat_spacing = B.lat_spacing) := by
  simp only [Loc.sameGrid, Bool.and_eq_true, beq_iff_eq]
  tauto

/-- C2 (amended): `intersection` raises its configuration error exactly when
one of the eight scalar grid parameters (resolution, fuzz, north, south,
east, west, lon_spacing, lat_spacing) differs; the longitude/latitude grid
vectors themselves are never compared. -/
theorem claim_C2 (A B : Loc) (boundsArg : Option Region) :
    isErr (A.intersection B boundsArg) = true ↔
      (A.resolution ≠ B.resolution ∨ A.fuzz ≠ B.fuzz ∨ A.north ≠ B.north ∨
       A.south ≠ B.south ∨ A.east ≠ B.east ∨ A.west ≠ B.west ∨
       A.lon_spacing ≠ B.lon_spacing ∨ A.lat_spacing ≠ B.lat_spacing) := by
  by_cases hg : A.sameGrid B = true
  · have h := (sameGrid_iff A B).mp hg
    simp [Loc.intersection, hg, isErr]
    tauto
  · have h : ¬ (A.resolution = B.resolution ∧ A.fuzz = B.fuzz ∧ A.north = B.north ∧
       A.south = B.south ∧ A.east = B.east ∧ A.west = B.west ∧
       A.lon_spacing = B.lon_spacing ∧ A.lat_spacing = B.lat_spacing) :=
      fun hc => hg ((sameGrid_iff A B).mpr hc)
    simp [Loc.intersection, hg, isErr]
    tauto

/-- C2 witness: two locations with identical scalar grid parameters are
intersected without error. -/
theorem claim_C2_witness : isErr (locOne.intersection locOtherLons none) = false := by
  have h := claim_C2 locOne locOtherLons none
  have hn : ¬ (locOne.resolution ≠ locOtherLons.resolution ∨
      locOne.fuzz ≠ locOtherLons.fuzz ∨ locOne.north ≠ locOtherLons.north ∨
      locOne.south ≠ locOtherLons.south ∨ locOne.east ≠ locOtherLons.east ∨
      locOne.west ≠ locOtherLons.west ∨
      locOne.lon_spacing ≠ locOtherLons.lon_spacing ∨
      locOne.lat_spacing ≠ locOtherLons.lat_spacing) := by decide
  cases hb : isErr (locOne.intersection locOtherLons none)
  · rfl
  · exact absurd (h.mp hb) hn

/-- C2 counterexample: `locOne` and `locOtherLons` have different
(not bit-identical) longitude grid vectors, yet `intersection` does not
raise the configuration error, contradicting the claim that grid identity
requires bit-identical grid vectors. -/
theorem claim_C2_counterexample :
    locOne.longitudes ≠ locOtherLons.longitudes ∧
      isErr (locOne.intersection locOtherLons none) = false := by
  constructor
  · decide
  · decide

/-- C5: the row loop of `_lazy_load_pmatrix` evaluated at a failing input.
A single stored row with negative probability mass makes the load raise
(the warning path references the unbound name `fname`), while the same
file without the negative row — including a zero-mass row — loads fine.
This contradicts the claim that a negative stored mass is a non-fatal
logged warning, and supports it being a slip in the code. -/
theorem claim_C5 :
    loadErrMsg (Location.lazy_load_pmatrix 2 2 [0, 1] [0, 1]
        [⟨0, 0, 0, 0, -1⟩]) = some "NameError: fname is not defined" ∧
      isOkLoad (Location.lazy_load_pmatrix 2 2 [0, 1] [0, 1]
        [⟨0, 0, 0, 0, 1⟩, ⟨1, 1, 1, 1, 0⟩]) = true := by
  constructor
  · decide
  · decide

/-- C6 (amended): the Gaussian ranging function evaluates the calibration
mean/sigma accessors at `np.percentile(rtts, .25)` — the 0.25th percentile
(quantile 0.0025) of the RTTs, not the 25th — and then floors `mu` at
1000 m and `sigma` at 1000/3 m. -/
theorem claim_C6 (muF sigmaF : ℚ → ℚ) (min_cal max_cal min_phy max_phy : ℚ)
    (rtts : List ℚ) :
    (gaussianInit muF sigmaF min_cal max_cal min_phy max_phy rtts).mu =
        max (muF (percentile rtts (1 / 4))) 1000 ∧
      (gaussianInit muF sigmaF min_cal max_cal min_phy max_phy rtts).sigma =
        max (sigmaF (percentile rtts (1 / 4))) (1000 / 3) ∧
      1000 ≤ (gaussianInit muF sigmaF min_cal max_cal min_phy max_phy rtts).mu ∧
      1000 / 3 ≤ (gaussianInit muF sigmaF min_cal max_cal min_phy max_phy rtts).sigma :=
  ⟨rfl, rfl, le_max_right _ _, le_max_right _ _⟩

/-- C6 counterexample: with identity calibration accessors and RTT samples
0 and 400000, the source construction yields mu = 1000 (from the 0.25th
percentile, 1000, floored), while the claimed 25th-percentile construction
yields mu = 100000. -/
theorem claim_C6_counterexample :
    (gaussianInit id id 0 0 0 0 [0, 400000]).mu = 1000 ∧
      (gaussianInitClaimed id id 0 0 0 0 [0, 400000]).mu = 100000 ∧
      (1000 : ℚ) ≠ 100000 := by
  refine ⟨?_, ?_, by norm_num⟩ <;>
    norm_num [gaussianInit, gaussianInitClaimed, percentile,
      List.insertionSort, List.orderedInsert]

/-- C7 (amended): the bounding region degenerates to the whole map
rectangle exactly when the ranging distance bound exceeds 19975000 m — a
slack threshold strictly below half the equatorial circumference
(20037508 m) — or is exactly 0; otherwise the geodesic disk around the
reference point is computed. -/
theorem claim_C7 (w s e n rlon rlat d : ℚ) :
    (obs_compute_bounding_region w s e n rlon rlat d = .wholeMap w s e n ↔
      (d > 19975000 ∨ d = 0)) ∧
      (obs_compute_bounding_region w s e n rlon rlat d = .geoDisk rlon rlat d ↔
        ¬ (d > 19975000 ∨ d = 0)) := by
  by_cases h : d > 19975000 ∨ d = 0 <;>
    simp [obs_compute_bounding_region, h]

/-- C7 witness: a zero distance bound degenerates to the whole map. -/
theorem claim_C7_witness :
    obs_compute_bounding_region 0 0 1 1 5 5 0 = .wholeMap 0 0 1 1 :=
  (claim_C7 0 0 1 1 5 5 0).1.mpr (Or.inr rfl)

/-- C7 counterexample: at a distance bound of 20000000 m — strictly
between the source threshold 19975000 and half the circumference
DISTANCE_LIMIT = 20037508, and nonzero — the code degenerates to the whole
map, while the claimed condition (bound ≥ 20037508 or = 0) does not hold. -/
theorem claim_C7_counterexample :
    obs_compute_bounding_region 0 0 1 1 5 5 20000000 = .wholeMap 0 0 1 1 ∧
      ¬ ((20000000 : ℚ) ≥ DISTANCE_LIMIT ∨ (20000000 : ℚ) = 0) := by
  refine ⟨by decide, by decide⟩

theorem insertionSort_six (a1 a2 a3 a4 a5 a6 : ℚ)
    (h12 : a1 < a2) (h23 : a2 < a3) (h34 : a3 < a4) (h45 : a4 < a5) (h56 : a5 < a6) :
    [a3, a4, a2, a5, a1, a6].insertionSort (· ≤ ·) = [a1, a2, a3, a4, a5, a6] := by
  have le16 : a1 ≤ a6 := (h12.trans (h23.trans (h34.trans (h45.trans h56)))).le
  have nle51 : ¬ a5 ≤ a1 := not_le.mpr (h12.trans (h23.trans (h34.trans h45)))
  have le56 : a5 ≤ a6 := h56.le
  have nle21 : ¬ a2 ≤ a1 := not_le.mpr h12
  have le25 : a2 ≤ a5 := (h23.trans (h34.trans h45)).le
  have nle41 : ¬ a4 ≤ a1 := not_le.mpr (h12.trans (h23.trans h34))
  have nle42 : ¬ a4 ≤ a2 := not_le.mpr (h23.trans h34)
  have le45 : a4 ≤ a5 := h45.le
  have nle31 : ¬ a3 ≤ a1 := not_le.mpr (h12.trans h23)
  have nle32 : ¬ a3 ≤ a2 := not_le.mpr h23
  have le34 : a3 ≤ a4 := h34.le
  simp [List.insertionSort, List.orderedInsert, le16, nle51, le56, nle21, le25,
    nle41, nle42, le45, nle31, nle32, le34]

theorem interp1d_plateau (a1 a2 a3 a4 a5 a6 v : ℚ)
    (h12 : a1 < a2) (h23 : a2 < a3) (h34 : a3 < a4) (h45 : a4 < a5) (h56 : a5 < a6)
    (hv1 : a3 ≤ v) (hv2 : v ≤ a4) :
    interp1dLinear [a1, a2, a3, a4, a5, a6] shapeVals v = 1 := by
  have hnot : ¬ (v < [a1, a2, a3, a4, a5, a6].headD 0 ∨
      [a1, a2, a3, a4, a5, a6].getLastD 0 < v) := by
    push_neg
    constructor
    · simpa using ((h12.trans h23).le.trans hv1)
    · simpa using (hv2.trans (h45.trans h56).le)
  rcases eq_or_lt_of_le hv1 with heq | hlt
  · subst heq
    have hc : bisect_left [a1, a2, a3, a4, a5, a6] a3 = 2 := by
      have d1 : a1 < a3 := h12.trans h23
      have d2 : a2 < a3 := h23
      have d3 : ¬ a3 < a3 := lt_irrefl a3
      have d4 : ¬ a4 < a3 := not_lt.mpr h34.le
      have d5 : ¬ a5 < a3 := not_lt.mpr (h34.trans h45).le
      have d6 : ¬ a6 < a3 := not_lt.mpr (h34.trans (h45.trans h56)).le
      simp [bisect_left, List.countP_cons, List.countP_nil, d1, d2, d3, d4, d5, d6]
    unfold interp1dLinear
    rw [if_neg hnot, hc]
    have hne : a3 - a2 ≠ 0 := sub_ne_zero.mpr (ne_of_gt h23)
    norm_num [shapeVals]
    rw [mul_div_assoc, div_self hne]
    norm_num
  · have hc : bisect_left [a1, a2, a3, a4, a5, a6] v = 3 := by
      have d1 : a1 < v := (h12.trans h23).trans hlt
      have d2 : a2 < v := h23.trans hlt
      have d3 : a3 < v := hlt
      have d4 : ¬ a4 < v := not_lt.mpr hv2
      have d5 : ¬ a5 < v := not_lt.mpr (hv2.trans h45.le)
      have d6 : ¬ a6 < v := not_lt.mpr (hv2.trans (h45.trans h56).le)
      simp [bisect_left, List.countP_cons, List.countP_nil, d1, d2, d3, d4, d5, d6]
    unfold interp1dLinear
    rw [if_neg hnot, hc]
    norm_num [shapeVals]

theorem interp1d_beyond (a1 a2 a3 a4 a5 a6 v : ℚ) (h : a6 < v) :
    interp1dLinear [a1, a2, a3, a4, a5, a6] shapeVals v = 0 := by
  unfold interp1dLinear
  rw [if_pos (Or.inr (by simpa using h))]

/-- C8: with the six clipped breakpoints in their intended strict order
(physical ⊂ empirical ⊂ calibration nesting), `MinMax.unnormalized_pvals`
is exactly 1 on the calibration plateau and exactly 0 beyond the largest
physical breakpoint, which is `distance_bound()`. -/
theorem claim_C8 (min_cal max_cal min_emp max_emp min_phy max_phy : ℚ)
    (h1 : clipToLimit min_phy < clipToLimit min_emp)
    (h2 : clipToLimit min_emp < clipToLimit min_cal)
    (h3 : clipToLimit min_cal < clipToLimit max_cal)
    (h4 : clipToLimit max_cal < clipToLimit max_emp)
    (h5 : clipToLimit max_emp < clipToLimit max_phy) :
    (∀ v, clipToLimit min_cal ≤ v → v ≤ clipToLimit max_cal →
      (minmaxInit min_cal max_cal min_emp max_emp min_phy max_phy).unnormalized_pvals v = 1) ∧
    (∀ v, clipToLimit max_phy < v →
      (minmaxInit min_cal max_cal min_emp max_emp min_phy max_phy).unnormalized_pvals v = 0) ∧
    (minmaxInit min_cal max_cal min_emp max_emp min_phy max_phy).distance_bound =
      clipToLimit max_phy := by
  have hsort : (minmaxInit min_cal max_cal min_emp max_emp min_phy max_phy).bounds =
      [clipToLimit min_phy, clipToLimit min_emp, clipToLimit min_cal,
       clipToLimit max_cal, clipToLimit max_emp, clipToLimit max_phy] := by
    show ([min_cal, max_cal, min_emp, max_emp, min_phy, max_phy].map
      clipToLimit).insertionSort (· ≤ ·) = _
    simp only [List.map_cons, List.map_nil]
    exact insertionSort_six _ _ _ _ _ _ h1 h2 h3 h4 h5
  refine ⟨?_, ?_, ?_⟩
  · intro v hv1 hv2
    show interp1dLinear
      (minmaxInit min_cal max_cal min_emp max_emp min_phy max_phy).bounds shapeVals v = 1
    rw [hsort]
    exact interp1d_plateau _ _ _ _ _ _ v h1 h2 h3 h4 h5 hv1 hv2
  · intro v hv
    show interp1dLinear
      (minmaxInit min_cal max_cal min_emp max_emp min_phy max_phy).bounds shapeVals v = 0
    rw [hsort]
    exact interp1d_beyond _ _ _ _ _ _ v hv
  · show (minmaxInit min_cal max_cal min_emp max_emp min_phy max_phy).bounds.getLastD 0 = _
    rw [hsort]
    rfl

/-- C8 witness: a concrete breakpoint configuration 1000 < 2000 < 3000 <
4000 < 5000 < 6000 (all inside the clipping range). -/
theorem claim_C8_witness :
    (minmaxInit 3000 4000 2000 5000 1000 6000).unnormalized_pvals 3500 = 1 ∧
      (minmaxInit 3000 4000 2000 5000 1000 6000).unnormalized_pvals 7000 = 0 ∧
      (minmaxInit 3000 4000 2000 5000 1000 6000).distance_bound = 6000 := by
  have hc : ∀ x : ℚ, 0 ≤ x → x ≤ DISTANCE_LIMIT → clipToLimit x = x := by
    intro x hx1 hx2
    rw [clipToLimit, max_eq_right hx1, min_eq_right hx2]
  have e1 : clipToLimit 1000 = 1000 := hc 1000 (by norm_num) (by norm_num [DISTANCE_LIMIT])
  have e2 : clipToLimit 2000 = 2000 := hc 2000 (by norm_num) (by norm_num [DISTANCE_LIMIT])
  have e3 : clipToLimit 3000 = 3000 := hc 3000 (by norm_num) (by norm_num [DISTANCE_LIMIT])
  have e4 : clipToLimit 4000 = 4000 := hc 4000 (by norm_num) (by norm_num [DISTANCE_LIMIT])
  have e5 : clipToLimit 5000 = 5000 := hc 5000 (by norm_num) (by norm_num [DISTANCE_LIMIT])
  have e6 : clipToLimit 6000 = 6000 := hc 6000 (by norm_num) (by norm_num [DISTANCE_LIMIT])
  have h := claim_C8 3000 4000 2000 5000 1000 6000
    (by rw [e1, e2]; norm_num) (by rw [e2, e3]; norm_num) (by rw [e3, e4]; norm_num)
    (by rw [e4, e5]; norm_num) (by rw [e5, e6]; norm_num)
  refine ⟨?_, ?_, ?_⟩
  · exact h.1 3500 (by rw [e3]; norm_num) (by rw [e4]; norm_num)
  · exact h.2.1 7000 (by rw [e6]; norm_num)
  · rw [h.2.2, e6]

/-- C9 (amended): for each derived property, a second access after a first
access returns the same value, leaves the cache state unchanged, and does
not run the underlying computation — except `area` of a location whose
materialized probability matrix has zero total mass, which returns 0
without populating the cache and therefore recomputes on every access (the
`area` conjunct holds under the hypothesis that the total is nonzero). -/
theorem claim_C9 :
    (∀ ops st, getBounds ops ((getBounds ops st).2.1) =
      ((getBounds ops st).1, (getBounds ops st).2.1, false)) ∧
    (∀ ops st, getProbability ops ((getProbability ops st).2.1) =
      ((getProbability ops st).1, (getProbability ops st).2.1, false)) ∧
    (∀ ops st, getVacuous ops ((getVacuous ops st).2.1) =
      ((getVacuous ops st).1, (getVacuous ops st).2.1, false)) ∧
    (∀ ops st, getCentroid ops ((getCentroid ops st).2.1) =
      ((getCentroid ops st).1, (getCentroid ops st).2.1, false)) ∧
    (∀ ops st, getCovariance ops ((getCovariance ops st).2.1) =
      ((getCovariance ops st).1, (getCovariance ops st).2.1, false)) ∧
    (∀ ops st, getRepPt ops ((getRepPt ops st).2.1) =
      ((getRepPt ops st).1, (getRepPt ops st).2.1, false)) ∧
    (∀ ops st, (getProbability ops st).1.total ≠ 0 →
      getArea ops ((getArea ops st).2.1) =
        ((getArea ops st).1, (getArea ops st).2.1, false)) := by
  refine ⟨?_, ?_, ?_, ?_, ?_, ?_, ?_⟩
  · intro ops st
    cases hb : st.boundsF <;> simp [getBounds, hb]
  · intro ops st
    cases hp : st.probF <;> simp [getProbability, hp]
  · intro ops st
    cases hv : st.vacF
    · cases hp : st.probF <;> simp [getVacuous, hv, hp]
    · simp [getVacuous, hv]
  · intro ops st
    cases hc : st.centroidF <;> simp [getCentroid, hc]
  · intro ops st
    cases hcv : st.covF
    · cases hc : st.centroidF <;> simp [getCovariance, hcv, hc]
    · simp [getCovariance, hcv]
  · intro ops st
    cases hr : st.repPtF <;> simp [getRepPt, hr]
  · intro ops st hS
    cases ha : st.areaF
    · simp [getArea, ha, hS]
    · simp [getArea, ha]

/-- C9 witness: a materialized one-cell state with total mass 1 caches its
area on first access; the second access is a cache hit. -/
theorem claim_C9_witness :
    getArea ops0 ((getArea ops0 stOne).2.1) =
      ((getArea ops0 stOne).1, (getArea ops0 stOne).2.1, false) := by
  have hS : (getProbability ops0 stOne).1.total ≠ 0 := by
    norm_num [getProbability, stOne, SpMat.total,
      Finset.sum_range_succ, Finset.sum_range_zero]
  exact claim_C9.2.2.2.2.2.2 ops0 stOne hS

/-- C9 counterexample: for a vacuous (zero-mass) materialized location the
`area` computation runs on the first access, leaves the cache unset, and
runs again on the second access — contradicting "the underlying
computation runs at most once ... the first access stores its result". -/
theorem claim_C9_counterexample :
    (getArea ops0 stZero).2.2 = true ∧
      ((getArea ops0 stZero).2.1).areaF = none ∧
      (getArea ops0 ((getArea ops0 stZero).2.1)).2.2 = true := by
  refine ⟨?_, ?_, ?_⟩ <;>
    norm_num [getArea, getProbability, stZero, zeroMat, SpMat.total,
      Finset.sum_range_succ, Finset.sum_range_zero]

/-- C10: non-totality of `contains_point` at the grid boundary, on a 2 × 3
grid with mass only in the eastern column.  A query longitude east of every
grid longitude bisects to the grid length, making the matrix accesses at
that index (and at index i+1) out of range, so the call raises IndexError
instead of returning a boolean.  A query west of every grid longitude
bisects to 0 and the i-1 accesses wrap to the far (eastern) edge: the
result flips between the two locations, which agree on the entire western
column and differ only in far-side cells. -/
theorem claim_C10 :
    (∀ x ∈ locFarEast.longitudes, x < 20) ∧
      bisect_left locFarEast.longitudes 20 = locFarEast.probability.nlon ∧
      cpErrMsg (locFarEast.contains_point 20 5) = some "IndexError" ∧
      (∀ x ∈ locFarEast.longitudes, -5 < x) ∧
      bisect_left locFarEast.longitudes (-5) = 0 ∧
      cpOut (locFarEast.contains_point (-5) 5) = some true ∧
      cpOut (locFarEastZero.contains_point (-5) 5) = some false ∧
      (∀ j < 3, locFarEast.probability.entry 0 j = locFarEastZero.probability.entry 0 j) := by
  refine ⟨by decide, by decide, by decide, by decide, by decide, by decide, by decide, by decide⟩

end AGeo


